import Mathlib

/-!
Shallow embedding of the tabular agents in `code/agent.py`
(`ValueIterationSolver` and `TdLearner`) together with proofs about the
properties claimed for them.

Python floats that occur in the value iteration sweep take the special
values `-inf` (from `-float('inf')`), `+inf` and `nan`, so the value
domain is modelled by the inductive type `F` below: exact rationals for
finite values plus the three IEEE special values, with IEEE semantics for
the arithmetic and comparisons the source uses (rounding is irrelevant to
the claims, so finite values stay exact rationals).

The environment/task object is an external collaborator of the code (it
is not part of the repository core); it is modelled from the spec as a
structure of functions (`MDP`).
-/

/-- Python float values reachable in this program: exact finite rationals
plus the IEEE special values `+inf`, `-inf` and `nan`. -/
inductive F where
  | nan : F
  | pinf : F
  | ninf : F
  | fin : ℚ → F
deriving DecidableEq, Repr

namespace F

/-- IEEE negation. -/
def neg : F → F
  | nan => nan
  | pinf => ninf
  | ninf => pinf
  | fin q => fin (-q)

/-- IEEE addition: `nan` absorbs, `+inf + -inf = nan`. -/
def add : F → F → F
  | nan, _ => nan
  | pinf, nan => nan
  | pinf, pinf => pinf
  | pinf, ninf => nan
  | pinf, fin _ => pinf
  | ninf, nan => nan
  | ninf, pinf => nan
  | ninf, ninf => ninf
  | ninf, fin _ => ninf
  | fin _, nan => nan
  | fin _, pinf => pinf
  | fin _, ninf => ninf
  | fin q, fin r => fin (q + r)

/-- IEEE multiplication: `nan` absorbs, `0 * inf = nan`, signs multiply. -/
def mul : F → F → F
  | nan, _ => nan
  | pinf, nan => nan
  | pinf, pinf => pinf
  | pinf, ninf => ninf
  | pinf, fin q => if 0 < q then pinf else if q < 0 then ninf else nan
  | ninf, nan => nan
  | ninf, pinf => ninf
  | ninf, ninf => pinf
  | ninf, fin q => if 0 < q then ninf else if q < 0 then pinf else nan
  | fin _, nan => nan
  | fin q, pinf => if 0 < q then pinf else if q < 0 then ninf else nan
  | fin q, ninf => if 0 < q then ninf else if q < 0 then pinf else nan
  | fin q, fin r => fin (q * r)

/-- IEEE subtraction, `x - y = x + (-y)`. -/
def sub (x y : F) : F := x.add y.neg

/-- Python `abs`. -/
def abs : F → F
  | nan => nan
  | pinf => pinf
  | ninf => pinf
  | fin q => fin |q|

/-- IEEE strict comparison `x < y`; any comparison with `nan` is false. -/
def lt : F → F → Bool
  | nan, _ => false
  | pinf, _ => false
  | ninf, nan => false
  | ninf, pinf => true
  | ninf, ninf => false
  | ninf, fin _ => true
  | fin _, nan => false
  | fin _, pinf => true
  | fin _, ninf => false
  | fin q, fin r => decide (q < r)

/-- IEEE equality test (Python `==`); `nan` is equal to nothing. -/
def beq : F → F → Bool
  | nan, _ => false
  | pinf, nan => false
  | pinf, pinf => true
  | pinf, ninf => false
  | pinf, fin _ => false
  | ninf, nan => false
  | ninf, pinf => false
  | ninf, ninf => true
  | ninf, fin _ => false
  | fin _, nan => false
  | fin _, pinf => false
  | fin _, ninf => false
  | fin q, fin r => decide (q = r)

theorem lt_irrefl (x : F) : lt x x = false := by
  cases x <;> simp [lt]

theorem lt_trans {x y z : F} (h1 : lt x y = true) (h2 : lt y z = true) :
    lt x z = true := by
  cases x <;> cases y <;> cases z <;> simp [lt] at * <;> linarith

theorem ne_nan_of_lt {x y : F} (h : lt x y = true) : y ≠ nan := by
  cases x <;> cases y <;> simp [lt] at *

theorem eq_of_beq {x y : F} (h : beq x y = true) : x = y := by
  cases x <;> cases y <;> simp [beq] at * <;> exact h

theorem ne_nan_of_beq {x y : F} (h : beq x y = true) (hy : y ≠ nan) : x ≠ nan := by
  cases x <;> cases y <;> simp [beq] at *

theorem not_lt_chain {x y z : F} (hy : y ≠ nan) (h1 : lt x y = false)
    (h2 : lt y z = false) : lt x z = false := by
  cases x <;> cases y <;> cases z <;> simp [lt] at * <;> linarith

theorem pinf_lt (x : F) : lt pinf x = false := by
  cases x <;> rfl

end F

/-- Modelled from the spec: the external environment/task collaborator
(spec section 6).  It exposes the state count, action count, discount
factor, the per-state allowed-action list (`get_allowed_actions(state)`,
a function of one state argument), the next-state distribution and the
reward function.  Probabilities, rewards and `gamma` are finite real
scalars, modelled as rationals. -/
structure MDP where
  num_states : ℕ
  num_actions : ℕ
  gamma : ℚ
  get_allowed_actions : ℕ → List ℕ
  next_state_distribution : ℕ → ℕ → List (ℕ × ℚ)
  get_reward : ℕ → ℕ → ℕ → ℚ

/-- Python list indexing `l[n]` for an in-scope nonnegative index:
raises IndexError when out of range. -/
def pyIdxF (l : List F) (n : ℕ) : Except String F :=
  if h : n < l.length then Except.ok (l.get ⟨n, h⟩)
  else Except.error "IndexError: list index out of range"

namespace ValueIterationSolver

/-- Inner loop of `get_action`: `val += prob * self.gamma * self.V[ns]`
accumulated over `next_state_distribution(state, action)`. -/
def lookahead_go (mdp : MDP) (V : List F) : List (ℕ × ℚ) → F → Except String F
  | [], val => Except.ok val
  | nsp :: rest, val =>
    match pyIdxF V nsp.1 with
    | Except.error e => Except.error e
    | Except.ok vns =>
      lookahead_go mdp V rest (val.add (((F.fin nsp.2).mul (F.fin mdp.gamma)).mul vns))

/-- One-step lookahead value of an action in `get_action`. -/
def lookahead_val (mdp : MDP) (V : List F) (state action : ℕ) : Except String F :=
  lookahead_go mdp V (mdp.next_state_distribution state action) (F.fin 0)

/-- The action-selection loop of `get_action`: tracks `best_action` and
`best_val`; on `val > best_val` it switches, on an exact tie it flips a
coin (`random.random() < 0.5`, modelled by the stream `coins`, consumed
only on ties) and switches when the coin is true. -/
def get_action_go (mdp : MDP) (V : List F) (state : ℕ) (coins : ℕ → Bool) :
    List ℕ → Option ℕ → F → ℕ → Except String (Option ℕ)
  | [], best_action, _, _ => Except.ok best_action
  | action :: rest, best_action, best_val, k =>
    match lookahead_val mdp V state action with
    | Except.error e => Except.error e
    | Except.ok val =>
      if F.lt best_val val then
        get_action_go mdp V state coins rest (some action) val k
      else if F.beq val best_val then
        if coins k then get_action_go mdp V state coins rest (some action) val (k + 1)
        else get_action_go mdp V state coins rest best_action best_val (k + 1)
      else get_action_go mdp V state coins rest best_action best_val k

/-- `ValueIterationSolver.get_action(state)`: greedy action with respect to
the current value table, starting from `best_action = None` and
`best_val = -float('inf')`.  The result is the Python return value: an
action index or `None`. -/
def get_action (mdp : MDP) (V : List F) (state : ℕ) (coins : ℕ → Bool) :
    Except String (Option ℕ) :=
  get_action_go mdp V state coins (mdp.get_allowed_actions state) none F.ninf 0

/-- Bellman backup of one action inside `learn`:
`val += prob * (reward + gamma * V[ns])`.  Indexing is total here via
`getD` with an inert `nan` placeholder; the claims only exercise
in-range indices. -/
def bellman_val (mdp : MDP) (V : List F) (state action : ℕ) : F :=
  (mdp.next_state_distribution state action).foldl
    (fun val nsp =>
      val.add ((F.fin nsp.2).mul
        ((F.fin (mdp.get_reward state action nsp.1)).add
          ((F.fin mdp.gamma).mul (V.getD nsp.1 F.nan))))) (F.fin 0)

/-- The per-state maximisation inside `learn`: `best_val` starts at
`-float('inf')` and is replaced whenever `val > best_val`. -/
def best_backup (mdp : MDP) (V : List F) (state : ℕ) : F :=
  (mdp.get_allowed_actions state).foldl
    (fun best_val action =>
      let val := bellman_val mdp V state action
      if F.lt best_val val then val else best_val) F.ninf

/-- One pass of the `for state in xrange(self.num_states)` loop in
`learn`: if the state has no allowed actions, `V[state] = 0.` is written
first (there is no `continue` in the source, so execution falls through);
then the best backup (still `-inf` for a terminal state) is computed,
`diff = abs(V[state] - best_val)` is taken, `V[state] = best_val` is
written, and `max_diff` is raised to `diff` when `diff > max_diff`. -/
def sweep_go (mdp : MDP) : List ℕ → List F → F → List F × F
  | [], V, max_diff => (V, max_diff)
  | state :: rest, V, max_diff =>
    let V1 := if (mdp.get_allowed_actions state).length = 0
              then V.set state (F.fin 0) else V
    let best_val := best_backup mdp V1 state
    let diff := F.abs ((V1.getD state F.nan).sub best_val)
    let V2 := V1.set state best_val
    let max_diff2 := if F.lt max_diff diff then diff else max_diff
    sweep_go mdp rest V2 max_diff2

/-- One full sweep of `learn` over all states, returning the updated
table and the sweep maximum absolute change `max_diff`. -/
def sweep (mdp : MDP) (V : List F) : List F × F :=
  sweep_go mdp (List.range mdp.num_states) V (F.fin 0)

/-- The `while True` loop of `learn`: sweeps repeat until
`max_diff < tol`.  The source has no iteration cap, so the loop is
represented with explicit fuel: `learn()` terminates on a given table
exactly when some fuel makes `learn_aux` return `some`. -/
def learn_aux (mdp : MDP) (tol : ℚ) : ℕ → List F → Option (List F)
  | 0, _ => none
  | fuel + 1, V =>
    let p := sweep mdp V
    if F.lt p.2 (F.fin tol) then some p.1 else learn_aux mdp tol fuel p.1

end ValueIterationSolver

/-- A one-state MDP whose only state is terminal (no allowed actions). -/
def mdpTerm : MDP where
  num_states := 1
  num_actions := 0
  gamma := 9/10
  get_allowed_actions := fun _ => []
  next_state_distribution := fun _ _ => []
  get_reward := fun _ _ _ => 0

/-- The concrete scenario of the spec: 2 states, state 0 has the single
action 0 leading deterministically to state 1 with reward 1, state 1 is
terminal, `gamma = 0.9`. -/
def mdpTwo : MDP where
  num_states := 2
  num_actions := 1
  gamma := 9/10
  get_allowed_actions := fun s => if s = 0 then [0] else []
  next_state_distribution := fun _ _ => [(1, 1)]
  get_reward := fun _ _ _ => 1

/-- A constantly-false coin stream for concrete runs of `get_action`. -/
def coinsF : ℕ → Bool := fun _ => false

/-- C1: the spec claims that after one `learn()` sweep a state with an
empty allowed-action set satisfies `V[state] == 0`.  The code writes
`V[state] = 0.` but then falls through (no `continue`), so the empty
action loop leaves `best_val = -float('inf')`, `diff = |0 - (-inf)| =
+inf`, and `V[state] = -inf` is written: after one sweep on the
one-terminal-state MDP the table is `[-inf]` (not `[0]`) and the sweep
`max_diff` is `+inf`, so the convergence test `max_diff < tol` can never
pass. -/
theorem terminal_state_sweep_bug :
    ValueIterationSolver.sweep mdpTerm [F.fin 1] = ([F.ninf], F.pinf) := by
  decide

/-- C2: on the concrete 2-state MDP of the spec with `tol = 1e-3`,
`learn()` never terminates: every sweep recomputes the terminal state 1
as `diff = +inf`, so `max_diff = +inf ≥ tol` forever (and the table
degenerates to `[-inf, -inf]`), contradicting the claimed convergence to
`V = [1.0, 0]`.  No amount of fuel makes the loop stop from the
constructor's initial table `[1., 1.]`. -/
theorem value_iteration_never_terminates :
    ∀ fuel : ℕ,
      ValueIterationSolver.learn_aux mdpTwo (1/1000) fuel [F.fin 1, F.fin 1] = none := by
  have hfix : ∀ fuel : ℕ,
      ValueIterationSolver.learn_aux mdpTwo (1/1000) fuel [F.ninf, F.ninf] = none := by
    intro fuel
    induction fuel with
    | zero => rfl
    | succ n ih =>
      have hsw : ValueIterationSolver.sweep mdpTwo [F.ninf, F.ninf] =
          ([F.ninf, F.ninf], F.pinf) := by
        norm_num [ValueIterationSolver.sweep, ValueIterationSolver.sweep_go,
          ValueIterationSolver.best_backup, ValueIterationSolver.bellman_val, mdpTwo,
          List.range_succ, List.foldl, List.set, List.getD, List.get?,
          F.add, F.mul, F.sub, F.neg, F.abs, F.lt, F.beq]
      simp [ValueIterationSolver.learn_aux, hsw, F.pinf_lt]
      simpa using ih
  have hstep2 : ∀ fuel : ℕ,
      ValueIterationSolver.learn_aux mdpTwo (1/1000) fuel [F.fin (19/10), F.ninf] = none := by
    intro fuel
    cases fuel with
    | zero => rfl
    | succ n =>
      have hsw : ValueIterationSolver.sweep mdpTwo [F.fin (19/10), F.ninf] =
          ([F.ninf, F.ninf], F.pinf) := by
        norm_num [ValueIterationSolver.sweep, ValueIterationSolver.sweep_go,
          ValueIterationSolver.best_backup, ValueIterationSolver.bellman_val, mdpTwo,
          List.range_succ, List.foldl, List.set, List.getD, List.get?,
          F.add, F.mul, F.sub, F.neg, F.abs, F.lt, F.beq]
      simp [ValueIterationSolver.learn_aux, hsw, F.pinf_lt]
      simpa using hfix n
  intro fuel
  cases fuel with
  | zero => rfl
  | succ n =>
    have hsw : ValueIterationSolver.sweep mdpTwo [F.fin 1, F.fin 1] =
        ([F.fin (19/10), F.ninf], F.pinf) := by
      norm_num [ValueIterationSolver.sweep, ValueIterationSolver.sweep_go,
        ValueIterationSolver.best_backup, ValueIterationSolver.bellman_val, mdpTwo,
        List.range_succ, List.foldl, List.set, List.getD, List.get?,
        F.add, F.mul, F.sub, F.neg, F.abs, F.lt, F.beq]
    simp [ValueIterationSolver.learn_aux, hsw, F.pinf_lt]
    simpa using hstep2 n

/-- C2 (witness instance): the non-termination theorem applied at fuel 5. -/
theorem value_iteration_never_terminates_witness :
    ValueIterationSolver.learn_aux mdpTwo (1/1000) 5 [F.fin 1, F.fin 1] = none :=
  value_iteration_never_terminates 5

/-- Invariant of the action-selection loop: when the loop produces an
action, that action's lookahead value is defined, is not below the
incoming `best_val`, and is not below the lookahead value of any action
still to be processed. -/
theorem get_action_go_spec (mdp : MDP) (V : List F) (state : ℕ) (coins : ℕ → Bool) :
    ∀ (acts : List ℕ) (best : Option ℕ) (best_val : F) (k : ℕ) (a : ℕ),
      best_val ≠ F.nan →
      (∀ a0, best = some a0 →
        ValueIterationSolver.lookahead_val mdp V state a0 = Except.ok best_val) →
      ValueIterationSolver.get_action_go mdp V state coins acts best best_val k =
        Except.ok (some a) →
      ∃ va, ValueIterationSolver.lookahead_val mdp V state a = Except.ok va ∧
        F.lt va best_val = false ∧
        ∀ b ∈ acts, ∀ vb,
          ValueIterationSolver.lookahead_val mdp V state b = Except.ok vb →
          F.lt va vb = false := by
  intro acts
  induction acts with
  | nil =>
    intro best best_val k a hnan hbest hrun
    simp only [ValueIterationSolver.get_action_go, Except.ok.injEq] at hrun
    refine ⟨best_val, hbest a hrun, F.lt_irrefl best_val, ?_⟩
    intro b hb
    exact absurd hb (List.not_mem_nil b)
  | cons act rest ih =>
    intro best best_val k a hnan hbest hrun
    simp only [ValueIterationSolver.get_action_go] at hrun
    cases hl : ValueIterationSolver.lookahead_val mdp V state act with
    | error e => rw [hl] at hrun; simp at hrun
    | ok val =>
      rw [hl] at hrun
      dsimp only at hrun
      by_cases hlt : F.lt best_val val = true
      · rw [if_pos hlt] at hrun
        obtain ⟨va, hva, hvaval, hrest⟩ :=
          ih (some act) val k a (F.ne_nan_of_lt hlt)
            (by intro a0 h0; injection h0 with h0; rw [← h0]; exact hl) hrun
        refine ⟨va, hva, ?_, ?_⟩
        · cases hvb : F.lt va best_val with
          | false => rfl
          | true => exact absurd (F.lt_trans hvb hlt) (by rw [hvaval]; simp)
        · intro b hb vb hvb
          rcases List.mem_cons.mp hb with hb | hb
          · rw [hb, hl] at hvb
            injection hvb with hvb
            rw [← hvb]
            exact hvaval
          · exact hrest b hb vb hvb
      · have hlt' : F.lt best_val val = false := by
          cases h : F.lt best_val val
          · rfl
          · exact absurd h hlt
        rw [if_neg hlt] at hrun
        by_cases heq : F.beq val best_val = true
        · have hveq : val = best_val := F.eq_of_beq heq
          rw [if_pos heq] at hrun
          cases hc : coins k with
          | true =>
            rw [if_pos hc] at hrun
            obtain ⟨va, hva, hvaval, hrest⟩ :=
              ih (some act) val (k + 1) a (by rw [hveq]; exact hnan)
                (by intro a0 h0; injection h0 with h0; rw [← h0]; exact hl) hrun
            refine ⟨va, hva, by rw [← hveq]; exact hvaval, ?_⟩
            intro b hb vb hvb
            rcases List.mem_cons.mp hb with hb | hb
            · rw [hb, hl] at hvb
              injection hvb with hvb
              rw [← hvb]
              exact hvaval
            · exact hrest b hb vb hvb
          | false =>
            rw [if_neg (by simp [hc])] at hrun
            obtain ⟨va, hva, hvaval, hrest⟩ := ih best best_val (k + 1) a hnan hbest hrun
            refine ⟨va, hva, hvaval, ?_⟩
            intro b hb vb hvb
            rcases List.mem_cons.mp hb with hb | hb
            · rw [hb, hl] at hvb
              injection hvb with hvb
              rw [← hvb, hveq]
              exact hvaval
            · exact hrest b hb vb hvb
        · rw [if_neg heq] at hrun
          obtain ⟨va, hva, hvaval, hrest⟩ := ih best best_val k a hnan hbest hrun
          refine ⟨va, hva, hvaval, ?_⟩
          intro b hb vb hvb
          rcases List.mem_cons.mp hb with hb | hb
          · rw [hb, hl] at hvb
            injection hvb with hvb
            rw [← hvb]
            exact F.not_lt_chain hnan hvaval hlt'
          · exact hrest b hb vb hvb

/-- C8: for every value table and every outcome of the stochastic
tie-breaking, when `get_action` returns an action it never is one whose
one-step lookahead value is strictly below the lookahead value of some
other allowed action of the queried state. -/
theorem vi_greedy_consistent (mdp : MDP) (V : List F) (state : ℕ) (coins : ℕ → Bool) (a : ℕ)
    (hne : mdp.get_allowed_actions state ≠ [])
    (hok : ValueIterationSolver.get_action mdp V state coins = Except.ok (some a)) :
    ∀ b ∈ mdp.get_allowed_actions state, ∀ va vb,
      ValueIterationSolver.lookahead_val mdp V state a = Except.ok va →
      ValueIterationSolver.lookahead_val mdp V state b = Except.ok vb →
      F.lt va vb = false := by
  obtain ⟨va0, hva0, _, hall⟩ :=
    get_action_go_spec mdp V state coins (mdp.get_allowed_actions state) none F.ninf 0 a
      (by simp) (by intro a0 h0; cases h0) hok
  intro b hb va vb hva hvb
  rw [hva0] at hva
  injection hva with hva
  rw [← hva]
  exact hall b hb vb hvb

/-- A 2-action MDP used to instantiate the greedy-consistency theorem:
action 0 leads to state 0 (value 0), action 1 to state 1 (value 1). -/
def mdpW : MDP where
  num_states := 2
  num_actions := 2
  gamma := 9/10
  get_allowed_actions := fun s => if s = 0 then [0, 1] else []
  next_state_distribution := fun _ a => if a = 0 then [(0, 1)] else [(1, 1)]
  get_reward := fun _ _ _ => 0

/-- The value table used with `mdpW`. -/
def VW : List F := [F.fin 0, F.fin 1]

/-- C8 (witness instance): on `mdpW` with table `VW`, `get_action`
returns action 1, and the theorem instantiates to the closed comparison
below. -/
theorem vi_greedy_consistent_witness : F.lt (F.fin (9/10)) (F.fin 0) = false :=
  vi_greedy_consistent mdpW VW 0 coinsF 1 (by simp [mdpW])
    (by norm_num [ValueIterationSolver.get_action, ValueIterationSolver.get_action_go,
      ValueIterationSolver.lookahead_val, ValueIterationSolver.lookahead_go,
      pyIdxF, mdpW, VW, F.add, F.mul, F.lt, F.beq])
    0 (by simp [mdpW]) (F.fin (9/10)) (F.fin 0)
    (by norm_num [ValueIterationSolver.lookahead_val, ValueIterationSolver.lookahead_go,
      pyIdxF, mdpW, VW, F.add, F.mul])
    (by norm_num [ValueIterationSolver.lookahead_val, ValueIterationSolver.lookahead_go,
      pyIdxF, mdpW, VW, F.add, F.mul])

/-- C5 (counterexample): the spec claims `get_action` fails with an error
on a state with no allowed actions; on the one-terminal-state MDP it
instead returns the Python value `None` as a normal, non-error result
(the selection loop never runs and the initial `best_action = None` is
returned). -/
theorem vi_get_action_terminal_counterexample :
    ValueIterationSolver.get_action mdpTerm [F.fin 1] 0 coinsF = Except.ok none := rfl

/-- C5 (amended): for every state whose allowed-action set is empty,
`get_action` returns `None` normally — there is no raise on this path in
the source. -/
theorem vi_get_action_terminal_returns_none (mdp : MDP) (V : List F) (state : ℕ)
    (coins : ℕ → Bool) (h : mdp.get_allowed_actions state = []) :
    ValueIterationSolver.get_action mdp V state coins = Except.ok none := by
  unfold ValueIterationSolver.get_action
  rw [h]
  simp only [ValueIterationSolver.get_action_go]

/-- C5 (witness for the amended theorem). -/
theorem vi_get_action_terminal_returns_none_witness :
    ValueIterationSolver.get_action mdpTerm [] 1 coinsF = Except.ok none :=
  vi_get_action_terminal_returns_none mdpTerm [] 1 coinsF rfl

namespace TdLearner

/-- The mutable attributes of a `TdLearner` instance; the task object a
method consults is passed alongside where needed. -/
structure TdState where
  num_states : ℕ
  num_actions : ℕ
  gamma : ℚ
  epsilon : ℚ
  alpha : ℚ
  update : String
  Q : List (List ℚ)
  s0 : Option ℕ
  a0 : Option ℕ
  r : Option ℚ
  s1 : Option ℕ
  a1 : Option ℕ
deriving DecidableEq, Repr

/-- Python list indexing `l[i]` where the index may be `None` (an unset
buffer slot): a `None` index raises TypeError, an out-of-range index
raises IndexError. -/
def pyIdx {α : Type} (l : List α) : Option ℕ → Except String α
  | none => Except.error "TypeError: list indices must be integers, not NoneType"
  | some n =>
    if h : n < l.length then Except.ok (l.get ⟨n, h⟩)
    else Except.error "IndexError: list index out of range"

/-- Python `max` over a nonempty list. -/
def pymax (q : ℚ) (qs : List ℚ) : ℚ := qs.foldl max q

/-- `_greedy_action(state)`: `self.Q[state].index(max(self.Q[state]))`,
the first index attaining the maximum of the whole Q row; `max` of an
empty row raises ValueError. -/
def greedy_action (Q : List (List ℚ)) (state : Option ℕ) : Except String ℕ :=
  match pyIdx Q state with
  | Except.error e => Except.error e
  | Except.ok q_vals =>
    match q_vals with
    | [] => Except.error "ValueError: max() arg is an empty sequence"
    | q :: qs => Except.ok ((q :: qs).findIdx (fun x => decide (x = pymax q qs)))

/-- `_td_update(s0, a0, r, s1, a1)`:
`Q[s0][a0] = Q[s0][a0] + alpha * (r + gamma * Q[s1][a1] - Q[s0][a0])`,
with the reads performed in Python order (`Q[s1][a1]`, then the add with
a possibly-`None` reward, then `Q[s0][a0]`). -/
def td_update (gamma alpha : ℚ) (Q : List (List ℚ)) (s0 a0 : Option ℕ) (r : Option ℚ)
    (s1 a1 : Option ℕ) : Except String (List (List ℚ)) :=
  match pyIdx Q s1 with
  | Except.error e => Except.error e
  | Except.ok row1 =>
    match pyIdx row1 a1 with
    | Except.error e => Except.error e
    | Except.ok q1 =>
      match r with
      | none => Except.error "TypeError: unsupported operand type for + with NoneType"
      | some rv =>
        match pyIdx Q s0 with
        | Except.error e => Except.error e
        | Except.ok row0 =>
          match pyIdx row0 a0 with
          | Except.error e => Except.error e
          | Except.ok q0 =>
            Except.ok (Q.set (s0.getD 0)
              (row0.set (a0.getD 0) (q0 + alpha * (rv + gamma * q1 - q0))))

/-- The bootstrap-target computation of `learn` (the if/elif/else over
`self.update`): the greedy action at the current state for `q_learning`,
the already-chosen current action `self.a1` for `sarsa`, and the
unreachable `raise NotImplementedError()` branch otherwise. -/
def next_action_sel (L : TdState) : Except String (Option ℕ) :=
  if L.update = "q_learning" then
    match greedy_action L.Q L.s1 with
    | Except.error e => Except.error e
    | Except.ok a => Except.ok (some a)
  else if L.update = "sarsa" then Except.ok L.a1
  else Except.error "NotImplementedError"

/-- `TdLearner.learn(reward)`: when a previous state exists, compute the
bootstrap target action (greedy at the current state for `q_learning`,
the already-chosen current action for `sarsa`), apply the TD backup, and
in every case finish by storing the passed reward for the next update. -/
def learn (L : TdState) (reward : ℚ) : Except String TdState :=
  match L.s0 with
  | none => Except.ok { L with r := some reward }
  | some _ =>
    match next_action_sel L with
    | Except.error e => Except.error e
    | Except.ok next_action =>
      match td_update L.gamma L.alpha L.Q L.s0 L.a0 L.r L.s1 next_action with
      | Except.error e => Except.error e
      | Except.ok Qnew => Except.ok { L with Q := Qnew, r := some reward }

/-- Python 2 `xrange` applied to the value of `task.get_allowed_actions(s)`:
per the collaborator contract that value is a list of action indices, and
`xrange` of a list raises TypeError. -/
def xrangeOfList (l : List ℕ) : Except String (List ℕ) :=
  Except.error "TypeError: range() integer end argument expected, got list."

/-- The Q-table comprehension of `TdLearner.__init__`:
`[[1 for a in xrange(task.get_allowed_actions(s))] for s in xrange(self.num_states)]`. -/
def buildQrows (task : MDP) : List ℕ → Except String (List (List ℚ))
  | [] => Except.ok []
  | s :: rest =>
    match xrangeOfList (task.get_allowed_actions s) with
    | Except.error e => Except.error e
    | Except.ok rng =>
      match buildQrows task rest with
      | Except.error e => Except.error e
      | Except.ok rows => Except.ok (rng.map (fun _ => (1 : ℚ)) :: rows)

/-- `TdLearner.__init__(task, update, epsilon, alpha)`: stores the task
scalars, validates the update rule (raising NotImplementedError for an
unsupported one), then builds the Q table and clears the streaming
buffer slots. -/
def init (task : MDP) (update : String) (epsilon alpha : ℚ) : Except String TdState :=
  if update = "q_learning" ∨ update = "sarsa" then
    match buildQrows task (List.range task.num_states) with
    | Except.error e => Except.error e
    | Except.ok Q =>
      Except.ok { num_states := task.num_states, num_actions := task.num_actions,
                  gamma := task.gamma, epsilon := epsilon, alpha := alpha,
                  update := update, Q := Q,
                  s0 := none, a0 := none, r := none, s1 := none, a1 := none }
  else Except.error "NotImplementedError"

/-- The first statement of `TdLearner.get_action`:
`poss_actions = self.task.get_allowed_actions()`.  The collaborator
method takes the state as its argument (spec section 6), so this
zero-argument call raises TypeError. -/
def get_allowed_actions_noarg (task : MDP) : Except String (List ℕ) :=
  Except.error "TypeError: get_allowed_actions() takes exactly 2 arguments, 1 given"

/-- `random.choice(seq)`: an element at an externally supplied random
pick; raises IndexError on an empty sequence. -/
def randomChoice (pick : ℕ) (l : List ℕ) : Except String ℕ :=
  if h : 0 < l.length then Except.ok (l.get ⟨pick % l.length, Nat.mod_lt pick h⟩)
  else Except.error "IndexError: list index out of range"

/-- `TdLearner.get_action(state)`: epsilon-greedy selection followed by
the streaming-buffer shift (`s0,a0 := s1,a1; s1,a1 := state,action`).
`rand` models `random.random()` and `pick` the `random.choice` draw. -/
def get_action (task : MDP) (L : TdState) (state : ℕ) (rand : ℚ) (pick : ℕ) :
    Except String (ℕ × TdState) :=
  match get_allowed_actions_noarg task with
  | Except.error e => Except.error e
  | Except.ok poss_actions =>
    match (if rand < L.epsilon then randomChoice pick poss_actions
           else greedy_action L.Q (some state)) with
    | Except.error e => Except.error e
    | Except.ok action =>
      Except.ok (action,
        { L with s0 := L.s1, a0 := L.a1, s1 := some state, a1 := some action })

end TdLearner

/-- A 1-state task whose single state has the single allowed action 0. -/
def taskOne : MDP where
  num_states := 1
  num_actions := 1
  gamma := 9/10
  get_allowed_actions := fun _ => [0]
  next_state_distribution := fun _ _ => [(0, 1)]
  get_reward := fun _ _ _ => 0

/-- A learner state as it would stand right before the second `learn`
call of the spec's lag scenario: previous transition (s0 = 0, a0 = 0),
stored reward 3, current state 1 with chosen action 0. -/
def Llag : TdLearner.TdState where
  num_states := 2
  num_actions := 1
  gamma := 1/2
  epsilon := 1/20
  alpha := 1/10
  update := "q_learning"
  Q := [[2], [4]]
  s0 := some 0
  a0 := some 0
  r := some 3
  s1 := some 1
  a1 := some 0

/-- A learner state with an empty streaming buffer (no previous state). -/
def LnoPrev : TdLearner.TdState where
  num_states := 1
  num_actions := 1
  gamma := 1/2
  epsilon := 1/20
  alpha := 1/10
  update := "sarsa"
  Q := [[1]]
  s0 := none
  a0 := none
  r := none
  s1 := none
  a1 := none

/-- C3: constructing a TdLearner with a supported update rule never
reaches a state satisfying the claimed Q-table invariant: the
comprehension passes the allowed-action list itself (not its length) to
`xrange`, which raises TypeError, so construction fails for any task
with at least one state. -/
theorem td_init_bug :
    TdLearner.init taskOne "sarsa" (1/20) (1/10) =
      Except.error "TypeError: range() integer end argument expected, got list." := rfl

/-- C9: the update-rule validation raises NotImplementedError exactly
for rules outside the supported pair, but with a supported rule
construction still does not complete on a task with at least one state —
it raises TypeError from the Q-table comprehension instead. -/
theorem td_init_validation :
    (∀ update : String, update ≠ "q_learning" → update ≠ "sarsa" →
      TdLearner.init taskOne update (1/20) (1/10) =
        Except.error "NotImplementedError") ∧
    TdLearner.init taskOne "q_learning" (1/20) (1/10) =
      Except.error "TypeError: range() integer end argument expected, got list." := by
  constructor
  · intro update h1 h2
    have hno : ¬ (update = "q_learning" ∨ update = "sarsa") := by
      rintro (hc | hc)
      · exact h1 hc
      · exact h2 hc
    unfold TdLearner.init
    rw [if_neg hno]
  · rfl

/-- C9 (witness instance): an unsupported rule raises the
unsupported-configuration error. -/
theorem td_init_validation_witness :
    TdLearner.init taskOne "dyna" (1/20) (1/10) = Except.error "NotImplementedError" :=
  td_init_validation.1 "dyna" (by decide) (by decide)

/-- C4: every call to `TdLearner.get_action` raises before selecting
anything: the source invokes `task.get_allowed_actions()` without the
state argument, so no epsilon-greedy draw from the queried state's
allowed set ever happens. -/
theorem td_get_action_bug (task : MDP) (L : TdLearner.TdState) (state : ℕ)
    (rand : ℚ) (pick : ℕ) :
    TdLearner.get_action task L state rand pick =
      Except.error "TypeError: get_allowed_actions() takes exactly 2 arguments, 1 given" := rfl

/-- C4 (witness instance). -/
theorem td_get_action_bug_witness :
    TdLearner.get_action taskOne LnoPrev 0 0 0 =
      Except.error "TypeError: get_allowed_actions() takes exactly 2 arguments, 1 given" :=
  td_get_action_bug taskOne LnoPrev 0 0 0

/-- C6: the claimed four-call scenario cannot run — construction raises
TypeError (xrange of a list) and every `get_action` call raises
TypeError (missing state argument) — while the `learn` code itself, on a
buffer state holding a previous transition and the stored reward 3, does
update `Q[s0][a0]` with that stored reward (2 + 1/10 * (3 + 1/2 * 4 - 2)
= 23/10, not the 27/10 that the just-passed reward 7 would give) and
then stores 7 for the next update. -/
theorem td_update_lag :
    TdLearner.init taskOne "q_learning" (1/20) (1/10) =
      Except.error "TypeError: range() integer end argument expected, got list." ∧
    (∀ (L : TdLearner.TdState) (s : ℕ) (u : ℚ) (c : ℕ),
      TdLearner.get_action taskOne L s u c =
        Except.error "TypeError: get_allowed_actions() takes exactly 2 arguments, 1 given") ∧
    TdLearner.learn Llag 7 =
      Except.ok { Llag with Q := [[23/10], [4]], r := some 7 } := by
  refine ⟨rfl, fun L s u c => rfl, ?_⟩
  norm_num [TdLearner.learn, TdLearner.next_action_sel, Llag, TdLearner.greedy_action,
    TdLearner.pyIdx, TdLearner.pymax, TdLearner.td_update, List.findIdx_cons]

/-- C6 (witness instance): the second conjunct applied at a concrete
learner and state. -/
theorem td_update_lag_witness :
    TdLearner.get_action taskOne Llag 1 0 0 =
      Except.error "TypeError: get_allowed_actions() takes exactly 2 arguments, 1 given" :=
  td_update_lag.2.1 Llag 1 0 0

theorem list_getD_eq_get {α : Type} (l : List α) (i : ℕ) (d : α) (h : i < l.length) :
    l.getD i d = l.get ⟨i, h⟩ := by
  induction l generalizing i with
  | nil => simp at h
  | cons a t ih =>
    cases i with
    | zero => simp
    | succ i => simpa using ih i (by simpa using h)

theorem list_getD_set_ne {α : Type} (l : List α) (i j : ℕ) (x d : α) (h : i ≠ j) :
    (l.set i x).getD j d = l.getD j d := by
  induction l generalizing i j with
  | nil => simp
  | cons a t ih =>
    cases i with
    | zero =>
      cases j with
      | zero => exact absurd rfl h
      | succ j => simp
    | succ i =>
      cases j with
      | zero => simp
      | succ j => simpa using ih i j (fun hc => h (by rw [hc]))

theorem list_getD_set_self {α : Type} (l : List α) (i : ℕ) (x d : α) (h : i < l.length) :
    (l.set i x).getD i d = x := by
  induction l generalizing i with
  | nil => simp at h
  | cons a t ih =>
    cases i with
    | zero => simp
    | succ i => simpa using ih i (by simpa using h)

/-- Success inversion for the modelled Python indexing. -/
theorem pyIdx_ok {α : Type} {l : List α} {i : Option ℕ} {x : α}
    (h : TdLearner.pyIdx l i = Except.ok x) :
    ∃ n, i = some n ∧ ∃ hn : n < l.length, x = l.get ⟨n, hn⟩ := by
  cases i with
  | none => simp [TdLearner.pyIdx] at h
  | some n =>
    by_cases hn : n < l.length
    · refine ⟨n, rfl, hn, ?_⟩
      simp only [TdLearner.pyIdx, dif_pos hn] at h
      exact (Except.ok.inj h).symm
    · simp only [TdLearner.pyIdx, dif_neg hn] at h
      cases h

/-- Success inversion for `_td_update`: all five transition slots must be
set and in range, and the result table is the single-entry TD write. -/
theorem td_update_ok {gamma alpha : ℚ} {Q : List (List ℚ)} {s0 a0 : Option ℕ}
    {r : Option ℚ} {s1 a1 : Option ℕ} {Q2 : List (List ℚ)}
    (hok : TdLearner.td_update gamma alpha Q s0 a0 r s1 a1 = Except.ok Q2) :
    ∃ (s0v a0v s1v a1v : ℕ) (rv : ℚ) (h0 : s0v < Q.length)
      (h0a : a0v < (Q.get ⟨s0v, h0⟩).length) (h1 : s1v < Q.length)
      (h1a : a1v < (Q.get ⟨s1v, h1⟩).length),
      s0 = some s0v ∧ a0 = some a0v ∧ s1 = some s1v ∧ a1 = some a1v ∧ r = some rv ∧
      Q2 = Q.set s0v ((Q.get ⟨s0v, h0⟩).set a0v
        ((Q.get ⟨s0v, h0⟩).get ⟨a0v, h0a⟩ + alpha *
          (rv + gamma * (Q.get ⟨s1v, h1⟩).get ⟨a1v, h1a⟩ -
            (Q.get ⟨s0v, h0⟩).get ⟨a0v, h0a⟩))) := by
  unfold TdLearner.td_update at hok
  cases hA : TdLearner.pyIdx Q s1 with
  | error e => rw [hA] at hok; simp at hok
  | ok row1 =>
    rw [hA] at hok
    dsimp only at hok
    cases hB : TdLearner.pyIdx row1 a1 with
    | error e => rw [hB] at hok; simp at hok
    | ok q1 =>
      rw [hB] at hok
      dsimp only at hok
      cases hrv : r with
      | none => rw [hrv] at hok; simp at hok
      | some rv =>
        rw [hrv] at hok
        dsimp only at hok
        cases hC : TdLearner.pyIdx Q s0 with
        | error e => rw [hC] at hok; simp at hok
        | ok row0 =>
          rw [hC] at hok
          dsimp only at hok
          cases hD : TdLearner.pyIdx row0 a0 with
          | error e => rw [hD] at hok; simp at hok
          | ok q0 =>
            rw [hD] at hok
            dsimp only at hok
            obtain ⟨s1v, hs1, h1, hrow1⟩ := pyIdx_ok hA
            obtain ⟨a1v, ha1, h1a, hq1⟩ := pyIdx_ok hB
            obtain ⟨s0v, hs0, h0, hrow0⟩ := pyIdx_ok hC
            subst hrow0
            obtain ⟨a0v, ha0, h0a, hq0⟩ := pyIdx_ok hD
            subst hrow1
            subst hq1
            subst hq0
            refine ⟨s0v, a0v, s1v, a1v, rv, h0, h0a, h1, h1a, hs0, ha0, hs1, ha1, rfl, ?_⟩
            rw [hs0, ha0] at hok
            simpa using (Except.ok.inj hok).symm

/-- The bootstrap-target selection evaluated under a supported rule. -/
theorem next_action_sel_eq (L : TdLearner.TdState) (a1t : ℕ)
    (htgt : (L.update = "q_learning" ∧
               TdLearner.greedy_action L.Q L.s1 = Except.ok a1t) ∨
            (L.update = "sarsa" ∧ L.a1 = some a1t)) :
    TdLearner.next_action_sel L = Except.ok (some a1t) := by
  rcases htgt with ⟨hq, hg⟩ | ⟨hs, ha⟩
  · unfold TdLearner.next_action_sel
    rw [hq, if_pos rfl, hg]
  · unfold TdLearner.next_action_sel
    rw [hs, if_neg (by decide), if_pos rfl, ha]

/-- C7: when `learn(reward)` applies an update (the previous state slot
is set), the written table is exactly
`Q[s0][a0] += alpha * (r + gamma * Q[s1][a1_target] - Q[s0][a0])` with
the target action the greedy action at the current state for
`q_learning` and the already-chosen current action for `sarsa`. -/
theorem td_backup_rule (L : TdLearner.TdState) (reward : ℚ) (L2 : TdLearner.TdState)
    (s0v a0v s1v a1t : ℕ) (rv : ℚ)
    (hs0 : L.s0 = some s0v) (ha0 : L.a0 = some a0v) (hs1 : L.s1 = some s1v)
    (hr : L.r = some rv)
    (htgt : (L.update = "q_learning" ∧
               TdLearner.greedy_action L.Q L.s1 = Except.ok a1t) ∨
            (L.update = "sarsa" ∧ L.a1 = some a1t))
    (hok : TdLearner.learn L reward = Except.ok L2) :
    L2.Q = L.Q.set s0v ((L.Q.getD s0v []).set a0v
      ((L.Q.getD s0v []).getD a0v 0 + L.alpha *
        (rv + L.gamma * ((L.Q.getD s1v []).getD a1t 0) -
          (L.Q.getD s0v []).getD a0v 0))) := by
  unfold TdLearner.learn at hok
  rw [hs0] at hok
  dsimp only at hok
  rw [next_action_sel_eq L a1t htgt] at hok
  dsimp only at hok
  cases hT : TdLearner.td_update L.gamma L.alpha L.Q (some s0v) L.a0 L.r L.s1 (some a1t) with
  | error e => rw [hT] at hok; simp at hok
  | ok Qnew =>
    rw [hT] at hok
    dsimp only at hok
    have hL2 : L2 = { L with Q := Qnew, s0 := some s0v, r := some reward } :=
      (Except.ok.inj hok).symm
    obtain ⟨s0x, a0x, s1x, a1x, rx, h0, h0a, h1, h1a, hx0, hxa0, hx1, hxa1, hxr, hQ2⟩ :=
      td_update_ok hT
    injection hx0 with hx0
    rw [ha0] at hxa0
    injection hxa0 with hxa0
    rw [hs1] at hx1
    injection hx1 with hx1
    injection hxa1 with hxa1
    rw [hr] at hxr
    injection hxr with hxr
    subst hx0
    subst hxa0
    subst hx1
    subst hxa1
    subst hxr
    rw [hL2]
    dsimp only
    rw [hQ2]
    rw [list_getD_eq_get L.Q s0v [] h0, list_getD_eq_get L.Q s1v [] h1,
        list_getD_eq_get (L.Q.get ⟨s0v, h0⟩) a0v 0 h0a,
        list_getD_eq_get (L.Q.get ⟨s1v, h1⟩) a1t 0 h1a]

/-- The table written by the backup theorem at the lag-scenario state. -/
def LlagOut : TdLearner.TdState := { Llag with Q := [[23/10], [4]], r := some 7 }

/-- C7 (witness instance): the backup formula instantiated at `Llag`. -/
theorem td_backup_rule_witness :
    LlagOut.Q = Llag.Q.set 0 ((Llag.Q.getD 0 []).set 0
      ((Llag.Q.getD 0 []).getD 0 0 + Llag.alpha *
        (3 + Llag.gamma * ((Llag.Q.getD 1 []).getD 0 0) -
          (Llag.Q.getD 0 []).getD 0 0))) :=
  td_backup_rule Llag 7 LlagOut 0 0 1 0 3 rfl rfl rfl rfl
    (Or.inl ⟨rfl, by norm_num [TdLearner.greedy_action, TdLearner.pyIdx,
      TdLearner.pymax, Llag, List.findIdx_cons]⟩)
    (by norm_num [TdLearner.learn, TdLearner.next_action_sel, Llag, LlagOut,
      TdLearner.greedy_action, TdLearner.pyIdx, TdLearner.pymax, TdLearner.td_update,
      List.findIdx_cons])

/-- C10: `learn(reward)` changes at most the single entry `Q[s0][a0]`;
all other attributes and all other table entries are untouched, and on a
call with no previous state the only change is storing the reward. -/
theorem td_learn_frame (L : TdLearner.TdState) (reward : ℚ) :
    (L.s0 = none → TdLearner.learn L reward = Except.ok { L with r := some reward }) ∧
    (∀ L2, TdLearner.learn L reward = Except.ok L2 →
      L2.num_states = L.num_states ∧ L2.num_actions = L.num_actions ∧
      L2.gamma = L.gamma ∧ L2.epsilon = L.epsilon ∧ L2.alpha = L.alpha ∧
      L2.update = L.update ∧ L2.s0 = L.s0 ∧ L2.a0 = L.a0 ∧ L2.s1 = L.s1 ∧
      L2.a1 = L.a1 ∧ L2.r = some reward ∧
      L2.Q.length = L.Q.length ∧
      (∀ s : ℕ, (L2.Q.getD s []).length = (L.Q.getD s []).length) ∧
      ∀ s a : ℕ, (L.s0 = some s → L.a0 = some a → False) →
        (L2.Q.getD s []).getD a 0 = (L.Q.getD s []).getD a 0) := by
  constructor
  · intro h0
    unfold TdLearner.learn
    rw [h0]
  · intro L2 hok
    cases hL0 : L.s0 with
    | none =>
      unfold TdLearner.learn at hok
      rw [hL0] at hok
      dsimp only at hok
      have hL2 : L2 = { L with s0 := none, r := some reward } := (Except.ok.inj hok).symm
      subst hL2
      exact ⟨rfl, rfl, rfl, rfl, rfl, rfl, rfl, rfl, rfl, rfl, rfl, rfl,
        fun s => rfl, fun s a h => rfl⟩
    | some s0v =>
      unfold TdLearner.learn at hok
      rw [hL0] at hok
      dsimp only at hok
      cases hna : TdLearner.next_action_sel L with
      | error e => rw [hna] at hok; simp at hok
      | ok next_action =>
        rw [hna] at hok
        dsimp only at hok
        cases hT : TdLearner.td_update L.gamma L.alpha L.Q (some s0v) L.a0 L.r L.s1
            next_action with
        | error e => rw [hT] at hok; simp at hok
        | ok Qnew =>
          rw [hT] at hok
          dsimp only at hok
          have hL2 : L2 = { L with Q := Qnew, s0 := some s0v, r := some reward } :=
            (Except.ok.inj hok).symm
          subst hL2
          obtain ⟨s0x, a0v, s1x, a1x, rx, h0, h0a, h1, h1a, hx0, hxa0, hx1, hxa1, hxr, hQ2⟩ :=
            td_update_ok hT
          injection hx0 with hx0
          subst hx0
          refine ⟨rfl, rfl, rfl, rfl, rfl, rfl, rfl, rfl, rfl, rfl, rfl, ?_, ?_, ?_⟩
          · dsimp only
            rw [hQ2]
            simp
          · intro s
            dsimp only
            rw [hQ2]
            by_cases hss : s = s0v
            · subst hss
              rw [list_getD_set_self _ _ _ _ h0, list_getD_eq_get L.Q s [] h0]
              simp
            · rw [list_getD_set_ne _ _ _ _ _ (fun hc => hss hc.symm)]
          · intro s a hfr
            dsimp only
            rw [hQ2]
            by_cases hss : s = s0v
            · subst hss
              have haa : a ≠ a0v := fun hc => hfr rfl (by rw [hc]; exact hxa0)
              rw [list_getD_set_self _ _ _ _ h0, list_getD_eq_get L.Q s [] h0,
                  list_getD_set_ne _ _ _ _ _ (fun hc => haa hc.symm)]
            · rw [list_getD_set_ne _ _ _ _ _ (fun hc => hss hc.symm)]

/-- C10 (witness instance): the no-previous-state case at a concrete
state, and one untouched entry of the lag-scenario update. -/
theorem td_learn_frame_witness :
    TdLearner.learn LnoPrev 5 = Except.ok { LnoPrev with r := some 5 } ∧
    (LlagOut.Q.getD 1 []).getD 0 0 = (Llag.Q.getD 1 []).getD 0 0 := by
  constructor
  · exact (td_learn_frame LnoPrev 5).1 rfl
  · have h := (td_learn_frame Llag 7).2 LlagOut
      (by norm_num [TdLearner.learn, TdLearner.next_action_sel, Llag, LlagOut,
        TdLearner.greedy_action, TdLearner.pyIdx, TdLearner.pymax, TdLearner.td_update,
        List.findIdx_cons])
    exact h.2.2.2.2.2.2.2.2.2.2.2.2.2 1 0 (fun h1 _ => by simp [Llag] at h1)
